import Mathlib

/-!
Verification model of the contended-monitor core (`ObjectMonitor`) of the
`mgronlun/loom` repository, shallowly embedded from
`src/hotspot/share/runtime/objectMonitor.cpp`.

Modelling conventions:
* Threads are identified by natural numbers; `_owner` is a sum of
  null / thread / DEFLATER_MARKER.
* The singly-linked `_cxq` and the doubly-linked `_EntryList` are modelled
  as Lean lists ordered head-first; `next` links are the list order and
  `prev` links are kept as explicit fields because `exit`'s drain loop and
  `INotify` write them.
* Executions are sequential (one thread runs at a time); CAS operations
  therefore observe the current state.  Loops that can only be left through
  interference of other threads take fuel and return `Option`.
* Debug-only `assert`s are comments; `guarantee`s (compiled into product
  builds, aborting the VM when false) are modelled as `Option.none`
  results where they guard a claim.
* Machine `int` fields (`_contentions`, `_waiters`) are modelled as `Int`;
  the only boundary value that matters, `INT_MIN`, is kept symbolic and no
  path in the modelled code overflows it.
-/

set_option linter.unusedVariables false

namespace ObjectMonitorModel

/-- Thread-state tag of an `ObjectWaiter` (`TStates` in the source). -/
inductive TStates where
  | TS_RUN
  | TS_CXQ
  | TS_ENTER
  | TS_WAIT
  deriving DecidableEq, Repr

/-- Value of a waiter's `_prev` link: null, the `0xBAD` poison written when a
node is pushed onto the cxq (objectMonitor.cpp line 798), or a reference to
the waiter node of the given thread. -/
inductive PrevPtr where
  | pnull
  | pbad
  | pthread (t : Nat)
  deriving DecidableEq, Repr

/-- One `ObjectWaiter` node, the per-blocked-thread queue record.  The `next`
link is represented by the order of the containing list. -/
structure ObjectWaiter where
  thread : Nat
  TState : TStates
  notified : Bool
  notifier_tid : Nat
  prev : PrevPtr
  deriving DecidableEq, Repr

/-- Value of the `_owner` field: null, a thread, or `DEFLATER_MARKER`. -/
inductive OwnerVal where
  | null
  | thread (t : Nat)
  | deflater
  deriving DecidableEq, Repr

/-- Smallest 32-bit signed integer, published into `_contentions` by a
successful deflation (objectMonitor.cpp lines 593 and 620). -/
def INT_MIN : Int := -2147483648

/-- The `ObjectMonitor` state.  `objectLive` models whether the weak
reference `_object` still resolves (`object_peek() != nullptr`);
`headerInstalled` models whether the displaced mark word has been restored
into the object's header; `unparks` is an event log of the threads that
have been unparked, so that claims about (not) unparking are statable. -/
structure Monitor where
  owner : OwnerVal
  recursions : Int
  cxq : List ObjectWaiter
  entryList : List ObjectWaiter
  succ : Option Nat
  responsible : Option Nat
  waitSet : List ObjectWaiter
  waiters : Int
  contentions : Int
  spinDuration : Int
  objectLive : Bool
  headerInstalled : Bool
  unparks : List Nat
  deriving DecidableEq, Repr

/-- Model of `ObjectMonitor::Knob_SpinLimit` (objectMonitor.cpp line 2217). -/
def Knob_SpinLimit : Int := 5000

/-- Model of `Knob_Bonus` (objectMonitor.cpp line 2219). -/
def Knob_Bonus : Int := 100

/-- Model of `Knob_Penalty` (objectMonitor.cpp line 2220). -/
def Knob_Penalty : Int := 200

/-- Model of `Knob_Poverty` (objectMonitor.cpp line 2221). -/
def Knob_Poverty : Int := 1000

/-- Model of `Knob_PreSpin` (objectMonitor.cpp line 2223). -/
def Knob_PreSpin : Nat := 10

/-- Model of `adjust_up` (objectMonitor.cpp lines 2225-2235): the successful-spin
update of `_SpinDuration`. -/
def adjust_up (spin_duration : Int) : Int :=
  let x := spin_duration
  if x < Knob_SpinLimit then
    let x := if x < Knob_Poverty then Knob_Poverty else x
    x + Knob_Bonus
  else
    spin_duration

/-- Model of `adjust_down` (objectMonitor.cpp lines 2237-2250): the failed-spin
update of `_SpinDuration`. -/
def adjust_down (spin_duration : Int) : Int :=
  let x := spin_duration
  if x > 0 then
    let x := x - Knob_Penalty
    let x := if x < 0 then 0 else x
    x
  else
    spin_duration

/-- Modelled from the spec: CAS on the `_owner` slot.  The implementation
`try_set_owner_from` lives in `objectMonitor.inline.hpp`, which is not part
of this repository slice; per the spec (section 4.1) it is a compare-and-swap
returning the previously observed value. -/
def try_set_owner_from (m : Monitor) (old_value new_value : OwnerVal) :
    OwnerVal × Monitor :=
  if m.owner = old_value then (old_value, { m with owner := new_value })
  else (m.owner, m)

/-- Modelled from the spec: atomic add on the `_contentions` counter
(`add_to_contentions` lives in `objectMonitor.inline.hpp`). -/
def add_to_contentions (m : Monitor) (value : Int) : Monitor :=
  { m with contentions := m.contentions + value }

/-- Modelled from the spec: a monitor has been async deflated exactly when
`_contentions` is negative (objectMonitor.cpp lines 576-578 document this;
the accessor itself lives in `objectMonitor.inline.hpp`). -/
def is_being_async_deflated (m : Monitor) : Bool :=
  m.contentions < 0

/-- Model of `install_displaced_markword_in_object` (objectMonitor.cpp lines
666-713): idempotently restore the saved displaced mark word into the
object's header; a lost CAS against another racer is not an error and the
early return when `object_peek()` is null is the `objectLive = false`
branch. -/
def install_displaced_markword_in_object (m : Monitor) : Monitor :=
  if m.objectLive then { m with headerInstalled := true } else m

/-- Result of `ObjectMonitor::TryLock`. -/
inductive TryLockResult where
  | HasOwner
  | Interference
  | Success
  deriving DecidableEq, Repr

/-- Model of `ObjectMonitor::TryLock` (objectMonitor.cpp lines 553-565). -/
def TryLock (self : Nat) (m : Monitor) : TryLockResult × Monitor :=
  if m.owner ≠ OwnerVal.null then (TryLockResult.HasOwner, m)
  else
    let r := try_set_owner_from m OwnerVal.null (OwnerVal.thread self)
    if r.1 = OwnerVal.null then (TryLockResult.Success, r.2)
    else (TryLockResult.Interference, r.2)

/-- Model of `ObjectMonitor::short_fixed_spin` (objectMonitor.cpp lines 2252-2266),
with the iteration count as structural fuel. -/
def short_fixed_spin (self : Nat) (adapt : Bool) :
    Nat → Monitor → Bool × Monitor
  | 0, m => (false, m)
  | n + 1, m =>
    match TryLock self m with
    | (TryLockResult.Success, m1) =>
      let m2 :=
        if adapt then { m1 with spinDuration := adjust_up m1.spinDuration }
        else m1
      (true, m2)
    | (TryLockResult.Interference, m1) => (false, m1)
    | (TryLockResult.HasOwner, m1) => short_fixed_spin self adapt n m1

/-- How the adaptive countdown loop of `TrySpin` was left: by acquiring the
lock, by breaking out early (safepoint poll, CAS interference or owner
flicker), or by exhausting the countdown (`ctr < 0`). -/
inductive SpinExit where
  | acquired
  | broke
  | exhausted
  deriving DecidableEq, Repr

/-- The countdown loop of `ObjectMonitor::TrySpin` (objectMonitor.cpp lines
2314-2383).  The safepoint poll is modelled as never armed.  `prv` is the
last non-null owner observed, driving the flicker heuristic. -/
def spin_loop (self : Nat) :
    Nat → Option OwnerVal → Monitor → SpinExit × Monitor
  | 0, _, m => (SpinExit.exhausted, m)
  | n + 1, prv, m =>
    match m.owner with
    | OwnerVal.null =>
      let r := try_set_owner_from m OwnerVal.null (OwnerVal.thread self)
      if r.1 = OwnerVal.null then
        let m2 :=
          if r.2.succ = some self then { r.2 with succ := Option.none }
          else r.2
        (SpinExit.acquired, { m2 with spinDuration := adjust_up m2.spinDuration })
      else
        (SpinExit.broke, r.2)
    | ox =>
      if prv ≠ Option.none ∧ prv ≠ some ox then (SpinExit.broke, m)
      else
        let m1 :=
          if m.succ = Option.none then { m with succ := some self } else m
        spin_loop self n (some ox) m1

/-- Model of `ObjectMonitor::TrySpin` (objectMonitor.cpp lines 2269-2403) with the
default `Knob_FixedSpin = 0`. -/
def TrySpin (self : Nat) (m : Monitor) : Bool × Monitor :=
  match short_fixed_spin self true Knob_PreSpin m with
  | (true, m1) => (true, m1)
  | (false, m1) =>
    let ctr := m1.spinDuration
    if ctr ≤ 0 then (false, m1)
    else
      let m2 :=
        if m1.succ = Option.none then { m1 with succ := some self } else m1
      match spin_loop self ctr.toNat Option.none m2 with
      | (SpinExit.acquired, m3) => (true, m3)
      | (ex, m3) =>
        let m4 :=
          if ex = SpinExit.exhausted then
            { m3 with spinDuration := adjust_down m3.spinDuration }
          else m3
        if m4.succ = some self then
          let m5 := { m4 with succ := Option.none }
          match TryLock self m5 with
          | (TryLockResult.Success, m6) => (true, m6)
          | (_, m6) => (false, m6)
        else
          (false, m4)

/-- Remove the waiter of thread `self` from the doubly-linked EntryList,
patching the successor's `prev` link (`UnlinkAfterAcquire`, `TS_ENTER` arm,
objectMonitor.cpp lines 1272-1281). -/
def unlinkEntry (self : Nat) : List ObjectWaiter → List ObjectWaiter
  | [] => []
  | w :: ws =>
    if w.thread = self then
      match ws with
      | [] => []
      | nxt :: rest => { nxt with prev := w.prev } :: rest
    else
      w :: unlinkEntry self ws

/-- Remove the waiter of thread `self` from the cxq (`UnlinkAfterAcquire`,
`TS_CXQ` arm, objectMonitor.cpp lines 1297-1319): pop from the head via CAS
or unlink from the interior with a scan. -/
def unlinkCxq (self : Nat) : List ObjectWaiter → List ObjectWaiter
  | [] => []
  | w :: ws => if w.thread = self then ws else w :: unlinkCxq self ws

/-- Model of `ObjectMonitor::UnlinkAfterAcquire` (objectMonitor.cpp lines 1267-1328).
The node's TState is `TS_ENTER` exactly when it sits on the EntryList, so
the TState branch is decided by list membership. -/
def UnlinkAfterAcquire (self : Nat) (m : Monitor) : Monitor :=
  if m.entryList.any (fun w => w.thread = self) then
    { m with entryList := unlinkEntry self m.entryList }
  else
    { m with cxq := unlinkCxq self m.cxq }

/-- The park-retry loop of `ObjectMonitor::EnterI` (objectMonitor.cpp lines
869-937).  Parking has no effect on the monitor state; the loop is left by
a successful try-lock (before or after the park), by cancelling an
in-progress async deflation (CAS `DEFLATER_MARKER` to self plus the extra
contentions increment), or by a successful adaptive spin.  Fuel bounds the
number of futile wakeups. -/
def enterI_loop (self : Nat) : Nat → Monitor → Option Monitor
  | 0, _ => Option.none
  | n + 1, m =>
    let t1 := TryLock self m
    if t1.1 = TryLockResult.Success then some t1.2
    else
      let t2 := TryLock self t1.2
      if t2.1 = TryLockResult.Success then some t2.2
      else
        let r := try_set_owner_from t2.2 OwnerVal.deflater
          (OwnerVal.thread self)
        if r.1 = OwnerVal.deflater then some (add_to_contentions r.2 1)
        else
          let ts := TrySpin self r.2
          if ts.1 = true then some ts.2
          else
            let m5 :=
              if ts.2.succ = some self then { ts.2 with succ := Option.none }
              else ts.2
            enterI_loop self n m5

/-- The enqueue step of `ObjectMonitor::EnterI` (objectMonitor.cpp lines
796-847): push a fresh `TS_CXQ` node for `self` onto the front of `_cxq`
(the CAS push succeeds at once in the sequential model) and, when both
queues were empty, try to assume the Responsible role. -/
def enterI_enqueue (self : Nat) (m : Monitor) : Monitor :=
  let node : ObjectWaiter :=
    { thread := self, TState := TStates.TS_CXQ, notified := false,
      notifier_tid := 0, prev := PrevPtr.pbad }
  let nxt := m.cxq
  let m4 := { m with cxq := node :: m.cxq }
  if nxt = [] ∧ m4.entryList = [] then
    if m4.responsible = Option.none then { m4 with responsible := some self }
    else m4
  else m4

/-- The egress of `ObjectMonitor::EnterI` (objectMonitor.cpp lines
939-975): unlink the acquired thread's node, clear `_succ` and the
Responsible role when they name `self`. -/
def enterI_egress (self : Nat) (m : Monitor) : Monitor :=
  let m7 := UnlinkAfterAcquire self m
  let m8 :=
    if m7.succ = some self then { m7 with succ := Option.none } else m7
  if m8.responsible = some self then { m8 with responsible := Option.none }
  else m8

/-- Model of `ObjectMonitor::EnterI` (objectMonitor.cpp lines 737-1001): try-lock,
deflation cancellation, one spin round, the `_cxq` enqueue, the park loop
and the unlink epilogue. -/
def EnterI (fuel : Nat) (self : Nat) (m : Monitor) : Option Monitor :=
  let t1 := TryLock self m
  if t1.1 = TryLockResult.Success then some t1.2
  else
    let r := try_set_owner_from t1.2 OwnerVal.deflater (OwnerVal.thread self)
    if r.1 = OwnerVal.deflater then some (add_to_contentions r.2 1)
    else
      let ts := TrySpin self r.2
      if ts.1 = true then some ts.2
      else
        match enterI_loop self fuel (enterI_enqueue self ts.2) with
        | Option.none => Option.none
        | some m6 => some (enterI_egress self m6)

/-- Model of `ObjectMonitor::enter` (objectMonitor.cpp lines 374-548) for a platform
thread that is never suspended: fast CAS, recursion, one spin round,
contention accounting with the async-deflation re-check, then `EnterI`.
Returns `true` (OWNED) or `false` (RETRY after a deflation race); `none`
when the park loop's fuel runs out (the thread is still blocked). -/
def enter (fuel : Nat) (self : Nat) (m : Monitor) : Option (Bool × Monitor) :=
  let r := try_set_owner_from m OwnerVal.null (OwnerVal.thread self)
  if r.1 = OwnerVal.null then some (true, r.2)
  else if r.1 = OwnerVal.thread self then
    some (true, { r.2 with recursions := r.2.recursions + 1 })
  else
    let ts := TrySpin self r.2
    if ts.1 = true then some (true, ts.2)
    else
      let m2 := add_to_contentions ts.2 1
      if is_being_async_deflated m2 then
        let m3 :=
          if m2.objectLive then install_displaced_markword_in_object m2 else m2
        some (false, add_to_contentions m3 (-1))
      else
        match EnterI fuel self m2 with
        | Option.none => Option.none
        | some m3 => some (true, add_to_contentions m3 (-1))

/-- Model of `ObjectMonitor::ExitEpilog` (objectMonitor.cpp lines 1560-1604): publish
the wakee as `_succ`, drop the lock, unpark the wakee. -/
def ExitEpilog (self : Nat) (wakee : ObjectWaiter) (m : Monitor) : Monitor :=
  let m1 := { m with succ := some wakee.thread }
  let m2 := { m1 with owner := OwnerVal.null }
  { m2 with unparks := m2.unparks ++ [wakee.thread] }

/-- The drain step of `ObjectMonitor::exit` (objectMonitor.cpp lines
1533-1541): walk the detached cxq chain, convert every node from `TS_CXQ`
to `TS_ENTER` and write the `prev` links; `q` is the previously visited
node (initially null). -/
def convertCxqToEntryList (q : PrevPtr) :
    List ObjectWaiter → List ObjectWaiter
  | [] => []
  | p :: rest =>
    let p1 := { p with TState := TStates.TS_ENTER, prev := q }
    p1 :: convertCxqToEntryList (PrevPtr.pthread p1.thread) rest

/-- The release-and-succession loop of `ObjectMonitor::exit`
(objectMonitor.cpp lines 1427-1557).  Fuel bounds the `continue`
iterations; the cxq detach CAS loop succeeds at once in the sequential
model. -/
def exit_loop (self : Nat) : Nat → Monitor → Option Monitor
  | 0, _ => Option.none
  | n + 1, m =>
    let m1 := { m with owner := OwnerVal.null }
    if (m1.entryList = [] ∧ m1.cxq = []) ∨ m1.succ ≠ Option.none then some m1
    else
      let r := try_set_owner_from m1 OwnerVal.null (OwnerVal.thread self)
      if r.1 ≠ OwnerVal.null then some r.2
      else
        match r.2.entryList with
        | w :: _ => some (ExitEpilog self w r.2)
        | [] =>
          match r.2.cxq with
          | [] => exit_loop self n r.2
          | w :: ws =>
            let m3 := { r.2 with cxq := [] }
            let m4 :=
              { m3 with
                entryList := convertCxqToEntryList PrevPtr.pnull (w :: ws) }
            if m4.succ ≠ Option.none then exit_loop self n m4
            else
              match m4.entryList with
              | w2 :: _ => some (ExitEpilog self w2 m4)
              | [] => exit_loop self n m4

/-- Model of `ObjectMonitor::exit` (objectMonitor.cpp lines 1387-1558): the non-owner
early return (no exception is raised; the debug-only assert is diagnostic),
the recursion decrement, clearing `_Responsible`, then the release loop. -/
def exit (fuel : Nat) (self : Nat) (m : Monitor) : Option Monitor :=
  if m.owner ≠ OwnerVal.thread self then some m
  else if m.recursions ≠ 0 then some { m with recursions := m.recursions - 1 }
  else
    exit_loop self fuel { m with responsible := Option.none }

/-- Model of `ObjectMonitor::DequeueWaiter` (objectMonitor.cpp lines 2469-2476) via
`DequeueSpecificWaiter`, which nulls the removed node's links
(objectMonitor.cpp lines 2499-2500). -/
def DequeueWaiter (m : Monitor) : Option ObjectWaiter × Monitor :=
  match m.waitSet with
  | [] => (Option.none, m)
  | w :: ws => (some { w with prev := PrevPtr.pnull }, { m with waitSet := ws })

/-- Model of `ObjectMonitor::INotify` (objectMonitor.cpp lines 1944-2011) for a
platform-thread waiter: dequeue the head of the WaitSet; mark it notified
and record the notifier; make it the sole EntryList element in state
`TS_ENTER` when the EntryList is empty, otherwise prepend it to the cxq in
state `TS_CXQ`.  No unpark is issued. -/
def INotify (self : Nat) (m : Monitor) : Monitor :=
  match DequeueWaiter m with
  | (Option.none, m1) => m1
  | (some iter, m1) =>
    let iter1 :=
      { iter with
          TState := TStates.TS_ENTER
          notified := true
          notifier_tid := self }
    if m1.entryList = [] then
      { m1 with entryList := [iter1] }
    else
      { m1 with cxq := { iter1 with TState := TStates.TS_CXQ } :: m1.cxq }

/-- Errors surfaced by the monitor operations: `IllegalMonitorStateException`
for a non-owner caller and `InterruptedException` from `wait`. -/
inductive MonError where
  | NOT_OWNER
  | INTERRUPTED
  deriving DecidableEq, Repr

/-- Model of `ObjectMonitor::check_owner` (objectMonitor.cpp lines 1648-1656) for a
platform thread: true exactly when the caller owns the monitor. -/
def check_owner (self : Nat) (m : Monitor) : Bool :=
  m.owner = OwnerVal.thread self

/-- Model of `ObjectMonitor::notify` (objectMonitor.cpp lines 2023-2032): ownership
check first, no-op on an empty WaitSet, otherwise one `INotify`. -/
def notify (self : Nat) (m : Monitor) : Except MonError Monitor :=
  if ¬ check_owner self m then Except.error MonError.NOT_OWNER
  else if m.waitSet = [] then Except.ok m
  else Except.ok (INotify self m)

/-- The `while (_WaitSet != nullptr) INotify` loop of
`ObjectMonitor::notifyAll` (objectMonitor.cpp lines 2051-2054); each
`INotify` on a non-empty WaitSet removes one waiter, so the WaitSet length
is sufficient fuel. -/
def notifyAll_loop (self : Nat) : Nat → Monitor → Monitor
  | 0, m => m
  | n + 1, m =>
    if m.waitSet = [] then m else notifyAll_loop self n (INotify self m)

/-- Model of `ObjectMonitor::notifyAll` (objectMonitor.cpp lines 2042-2057). -/
def notifyAll (self : Nat) (m : Monitor) : Except MonError Monitor :=
  if ¬ check_owner self m then Except.error MonError.NOT_OWNER
  else if m.waitSet = [] then Except.ok m
  else Except.ok (notifyAll_loop self m.waitSet.length m)

/-- Outcome of the entry phase of `ObjectMonitor::wait`: an
IllegalMonitorStateException, an InterruptedException raised before
enqueueing, the parked state (with the saved recursion count), or fuel
exhaustion inside `exit` (unreachable from well-formed states).  Each
outcome carries the caller's pending-interrupt flag after the phase. -/
inductive WaitEntryOutcome where
  | imse (intrFlag : Bool) (m : Monitor)
  | intr (intrFlag : Bool) (m : Monitor)
  | parked (intrFlag : Bool) (save : Int) (m : Monitor)
  | stuck
  deriving DecidableEq, Repr

/-- The entry phase of `ObjectMonitor::wait` (objectMonitor.cpp lines
1710-1787), up to the park: the `CHECK_OWNER` test, the pending-interrupt
short circuit (`is_interrupted(true)` clears the flag before the throw),
the `TS_WAIT` node appended at the tail of the WaitSet under `_WaitSetLock`,
clearing `_Responsible`, saving and zeroing `_recursions`, incrementing
`_waiters`, and the call to `exit`. -/
def wait_entry (fuel : Nat) (self : Nat) (intrFlag : Bool) (millis : Int)
    (m : Monitor) : WaitEntryOutcome :=
  if ¬ check_owner self m then WaitEntryOutcome.imse intrFlag m
  else if intrFlag then WaitEntryOutcome.intr false m
  else
    let node : ObjectWaiter :=
      { thread := self, TState := TStates.TS_WAIT, notified := false,
        notifier_tid := 0, prev := PrevPtr.pnull }
    let m1 := { m with waitSet := m.waitSet ++ [node] }
    let m2 := { m1 with responsible := Option.none }
    let save := m2.recursions
    let m3 := { m2 with waiters := m2.waiters + 1, recursions := 0 }
    match exit fuel self m3 with
    | some m4 => WaitEntryOutcome.parked false save m4
    | Option.none => WaitEntryOutcome.stuck

/-- The notification-versus-interrupt check at the end of
`ObjectMonitor::wait` (objectMonitor.cpp lines 1926-1936), reached after the
monitor has been re-acquired: when the waiter was not notified and an
interrupt is pending, the flag is cleared (`is_interrupted(true)`) and
`InterruptedException` is raised; otherwise the call returns normally.
Returns the raised error, if any, and the interrupt flag afterwards. -/
def wait_finish (wasNotified : Bool) (intrFlag : Bool) :
    Option MonError × Bool :=
  if ¬ wasNotified then
    if intrFlag then (some MonError.INTERRUPTED, false)
    else (Option.none, intrFlag)
  else (Option.none, intrFlag)

/-- Modelled from the spec: the quick busy check used by the deflater
(`is_busy` lives in `objectMonitor.hpp`; spec section 4.8 step 1: skip when
`contentions > 0 ∨ waiters != 0 ∨ owner ∉ {NONE}`). -/
def is_busy (m : Monitor) : Bool :=
  0 < m.contentions ∨ m.waiters ≠ 0 ∨ m.owner ≠ OwnerVal.null

/-- The `guarantee` block at the end of `ObjectMonitor::deflate_monitor`
(objectMonitor.cpp lines 633-641) followed by the header restoration
(lines 643-654); a failed `guarantee` aborts the VM, modelled as
`Option.none`. -/
def deflate_monitor_tail (m : Monitor) : Option (Bool × Monitor) :=
  if m.owner = OwnerVal.deflater ∧ m.contentions < 0 ∧ m.waiters = 0 ∧
      m.cxq = [] ∧ m.entryList = [] then
    some (true, if m.objectLive then install_displaced_markword_in_object m
                else m)
  else Option.none

/-- Model of `ObjectMonitor::deflate_monitor` (objectMonitor.cpp lines 580-659): the
quick busy check, the direct deflation of a monitor whose object died, or
the two-part async deflation dance (CAS `_owner` null to `DEFLATER_MARKER`,
re-check `contentions`/`waiters`, CAS `_contentions` 0 to `INT_MIN`, with
the owner-restore and deferred-decrement paths on failure). -/
def deflate_monitor (m : Monitor) : Option (Bool × Monitor) :=
  if is_busy m then some (false, m)
  else if ¬ m.objectLive then
    deflate_monitor_tail { m with owner := OwnerVal.deflater,
                                  contentions := INT_MIN }
  else
    let r1 := try_set_owner_from m OwnerVal.null OwnerVal.deflater
    if r1.1 ≠ OwnerVal.null then some (false, r1.2)
    else if 0 < r1.2.contentions ∨ r1.2.waiters ≠ 0 then
      let r2 := try_set_owner_from r1.2 OwnerVal.deflater OwnerVal.null
      if r2.1 ≠ OwnerVal.deflater then
        some (false, add_to_contentions r2.2 (-1))
      else some (false, r2.2)
    else if r1.2.contentions = 0 then
      deflate_monitor_tail { r1.2 with contentions := INT_MIN }
    else
      let r2 := try_set_owner_from r1.2 OwnerVal.deflater OwnerVal.null
      if r2.1 ≠ OwnerVal.deflater then
        some (false, add_to_contentions r2.2 (-1))
      else some (false, r2.2)

/-- Boolean check that the `prev` links of a waiter list form a chain whose
first element points back at the thread `t`. -/
def prevChainFrom (t : Nat) : List ObjectWaiter → Bool
  | [] => true
  | w :: ws =>
    if w.prev = PrevPtr.pthread t then prevChainFrom w.thread ws else false

/-- Boolean check that a waiter list is doubly linked: the head's `prev` is
null and every later node's `prev` names the node before it. -/
def entryPrevChain : List ObjectWaiter → Bool
  | [] => true
  | w :: ws =>
    if w.prev = PrevPtr.pnull then prevChainFrom w.thread ws else false

/-- One update applied to `_SpinDuration` by `TrySpin`: `adjust_up` after a
profitable spin, `adjust_down` after an exhausted one. -/
inductive SpinAdj where
  | up
  | down
  deriving DecidableEq, Repr

/-- Apply one `_SpinDuration` update. -/
def applyAdj (x : Int) (a : SpinAdj) : Int :=
  match a with
  | SpinAdj.up => adjust_up x
  | SpinAdj.down => adjust_down x

/-- An idle monitor used as a base point for concrete executions. -/
def monIdle : Monitor :=
  { owner := OwnerVal.null, recursions := 0, cxq := [], entryList := [],
    succ := Option.none, responsible := Option.none, waitSet := [],
    waiters := 0, contentions := 0, spinDuration := 3, objectLive := true,
    headerInstalled := false, unparks := [] }

/-- A fresh contending waiter node for thread `t`, as pushed by `EnterI`. -/
def wtr (t : Nat) : ObjectWaiter :=
  { thread := t, TState := TStates.TS_CXQ, notified := false,
    notifier_tid := 0, prev := PrevPtr.pbad }

/-- A waiting node for thread `t`, as enqueued by `wait`. -/
def wWait (t : Nat) : ObjectWaiter :=
  { thread := t, TState := TStates.TS_WAIT, notified := false,
    notifier_tid := 0, prev := PrevPtr.pnull }

/-- A monitor owned by thread 1 whose WaitSet holds thread 5. -/
def monWait5 : Monitor :=
  { monIdle with owner := OwnerVal.thread 1, waitSet := [wWait 5] }

theorem TryLock_success_owner (self : Nat) (m m' : Monitor)
    (h : TryLock self m = (TryLockResult.Success, m')) :
    m'.owner = OwnerVal.thread self := by
  unfold TryLock try_set_owner_from at h
  by_cases h1 : m.owner = OwnerVal.null
  · simp [h1] at h
    simp [← h]
  · simp [h1] at h

theorem TryLock_contentions (self : Nat) (m : Monitor) :
    ((TryLock self m).2).contentions = m.contentions := by
  unfold TryLock try_set_owner_from
  by_cases h1 : m.owner = OwnerVal.null <;> simp [h1]

theorem short_fixed_spin_true_owner (self : Nat) (adapt : Bool) (n : Nat)
    (m m' : Monitor) (h : short_fixed_spin self adapt n m = (true, m')) :
    m'.owner = OwnerVal.thread self := by
  induction n generalizing m with
  | zero => simp [short_fixed_spin] at h
  | succ n ih =>
    rw [short_fixed_spin] at h
    rcases htl : TryLock self m with ⟨tlr, m1⟩
    rw [htl] at h
    cases tlr with
    | Success =>
      simp at h
      have := TryLock_success_owner self m m1 htl
      by_cases ha : adapt = true
      · simp [ha] at h
        simp [← h, this]
      · simp at ha
        simp [ha] at h
        simp [← h, this]
    | Interference => simp at h
    | HasOwner => exact ih m1 h

theorem short_fixed_spin_contentions (self : Nat) (adapt : Bool) (n : Nat)
    (m : Monitor) :
    ((short_fixed_spin self adapt n m).2).contentions = m.contentions := by
  induction n generalizing m with
  | zero => simp [short_fixed_spin]
  | succ n ih =>
    rw [short_fixed_spin]
    rcases htl : TryLock self m with ⟨tlr, m1⟩
    have hc : m1.contentions = m.contentions := by
      have := TryLock_contentions self m
      rw [htl] at this
      exact this
    cases tlr with
    | Success =>
      by_cases ha : adapt = true <;> simp [ha, hc]
    | Interference => simp [hc]
    | HasOwner => simp [ih m1, hc]

theorem spin_loop_acquired_owner (self : Nat) (n : Nat)
    (prv : Option OwnerVal) (m m' : Monitor)
    (h : spin_loop self n prv m = (SpinExit.acquired, m')) :
    m'.owner = OwnerVal.thread self := by
  induction n generalizing prv m with
  | zero => simp [spin_loop] at h
  | succ n ih =>
    rw [spin_loop] at h
    rcases ho : m.owner with _ | t | _
    · rw [ho] at h
      simp [try_set_owner_from, ho] at h
      by_cases hs : m.succ = some self
      · simp [hs] at h
        simp [← h]
      · simp [hs] at h
        simp [← h]
    · rw [ho] at h
      by_cases hf : prv ≠ Option.none ∧ prv ≠ some (OwnerVal.thread t)
      · simp [hf] at h
      · simp [hf] at h
        by_cases hs : m.succ = Option.none
        · simp [hs] at h
          exact ih _ _ h
        · simp [hs] at h
          exact ih _ _ h
    · rw [ho] at h
      by_cases hf : prv ≠ Option.none ∧ prv ≠ some OwnerVal.deflater
      · simp [hf] at h
      · simp [hf] at h
        by_cases hs : m.succ = Option.none
        · simp [hs] at h
          exact ih _ _ h
        · simp [hs] at h
          exact ih _ _ h

theorem spin_loop_contentions (self : Nat) (n : Nat) (prv : Option OwnerVal)
    (m : Monitor) :
    ((spin_loop self n prv m).2).contentions = m.contentions := by
  induction n generalizing prv m with
  | zero => simp [spin_loop]
  | succ n ih =>
    rw [spin_loop]
    rcases ho : m.owner with _ | t | _
    · simp [try_set_owner_from, ho]
      by_cases hs : m.succ = some self <;> simp [hs]
    · by_cases hf : prv ≠ Option.none ∧ prv ≠ some (OwnerVal.thread t)
      · simp [hf]
      · simp [hf]
        by_cases hs : m.succ = Option.none <;> simp [hs, ih]
    · by_cases hf : prv ≠ Option.none ∧ prv ≠ some OwnerVal.deflater
      · simp [hf]
      · simp [hf]
        by_cases hs : m.succ = Option.none <;> simp [hs, ih]

theorem TrySpin_true_owner (self : Nat) (m m' : Monitor)
    (h : TrySpin self m = (true, m')) :
    m'.owner = OwnerVal.thread self := by
  unfold TrySpin at h
  rcases hsf : short_fixed_spin self true Knob_PreSpin m with ⟨b1, m1⟩
  rw [hsf] at h
  cases b1 with
  | true =>
    simp at h
    have := short_fixed_spin_true_owner self true Knob_PreSpin m m1 hsf
    simp [← h, this]
  | false =>
    simp at h
    by_cases hctr : m1.spinDuration ≤ 0
    · simp [hctr] at h
    · simp [hctr] at h
      by_cases hs : m1.succ = Option.none
      · simp [hs] at h
        rcases hsl : spin_loop self m1.spinDuration.toNat Option.none
            { m1 with succ := some self } with ⟨ex, m3⟩
        rw [hsl] at h
        cases ex with
        | acquired =>
          simp at h
          have := spin_loop_acquired_owner self _ _ _ _ hsl
          simp [← h, this]
        | broke =>
          simp at h
          split at h
          · rcases htl : TryLock self { { m3 with succ := Option.none } with
                succ := Option.none } with ⟨tlr, m6⟩
            simp [htl] at h
            cases tlr with
            | Success =>
              simp at h
              have := TryLock_success_owner self _ _ htl
              simp [← h, this]
            | Interference => simp at h
            | HasOwner => simp at h
          · simp at h
        | exhausted =>
          simp at h
          split at h
          · rcases htl : TryLock self
                { { m3 with spinDuration := adjust_down m3.spinDuration } with
                  succ := Option.none } with ⟨tlr, m6⟩
            simp [htl] at h
            cases tlr with
            | Success =>
              simp at h
              have := TryLock_success_owner self _ _ htl
              simp [← h, this]
            | Interference => simp at h
            | HasOwner => simp at h
          · simp at h
      · simp [hs] at h
        rcases hsl : spin_loop self m1.spinDuration.toNat Option.none m1
          with ⟨ex, m3⟩
        rw [hsl] at h
        cases ex with
        | acquired =>
          simp at h
          have := spin_loop_acquired_owner self _ _ _ _ hsl
          simp [← h, this]
        | broke =>
          simp at h
          split at h
          · rcases htl : TryLock self { { m3 with succ := Option.none } with
                succ := Option.none } with ⟨tlr, m6⟩
            simp [htl] at h
            cases tlr with
            | Success =>
              simp at h
              have := TryLock_success_owner self _ _ htl
              simp [← h, this]
            | Interference => simp at h
            | HasOwner => simp at h
          · simp at h
        | exhausted =>
          simp at h
          split at h
          · rcases htl : TryLock self
                { { m3 with spinDuration := adjust_down m3.spinDuration } with
                  succ := Option.none } with ⟨tlr, m6⟩
            simp [htl] at h
            cases tlr with
            | Success =>
              simp at h
              have := TryLock_success_owner self _ _ htl
              simp [← h, this]
            | Interference => simp at h
            | HasOwner => simp at h
          · simp at h

theorem TrySpin_contentions (self : Nat) (m : Monitor) :
    ((TrySpin self m).2).contentions = m.contentions := by
  unfold TrySpin
  rcases hsf : short_fixed_spin self true Knob_PreSpin m with ⟨b1, m1⟩
  have hc1 : m1.contentions = m.contentions := by
    have := short_fixed_spin_contentions self true Knob_PreSpin m
    rw [hsf] at this
    exact this
  cases b1 with
  | true => simpa using hc1
  | false =>
    simp only
    by_cases hctr : m1.spinDuration ≤ 0
    · simpa [hctr] using hc1
    · simp only [hctr, if_false]
      by_cases hs : m1.succ = Option.none
      · simp only [hs, if_true]
        rcases hsl : spin_loop self m1.spinDuration.toNat Option.none
            { m1 with succ := some self } with ⟨ex, m3⟩
        have hc3 : m3.contentions = m.contentions := by
          have := spin_loop_contentions self m1.spinDuration.toNat Option.none
            { m1 with succ := some self }
          rw [hsl] at this
          simpa [hc1] using this
        cases ex with
        | acquired => simpa using hc3
        | broke =>
          simp only
          by_cases hs4 : m3.succ = some self
          · simp only [hs4, if_true, if_pos]
            rcases htl : TryLock self { m3 with succ := Option.none }
              with ⟨tlr, m6⟩
            have hc6 : m6.contentions = m.contentions := by
              have := TryLock_contentions self { m3 with succ := Option.none }
              rw [htl] at this
              simpa [hc3] using this
            cases tlr <;> simp_all
          · simp_all
        | exhausted =>
          simp only
          by_cases hs4 : ({ m3 with
              spinDuration := adjust_down m3.spinDuration } : Monitor).succ
              = some self
          · simp only [hs4, if_true, if_pos]
            rcases htl : TryLock self
                { { m3 with spinDuration := adjust_down m3.spinDuration } with
                  succ := Option.none } with ⟨tlr, m6⟩
            have hc6 : m6.contentions = m.contentions := by
              have := TryLock_contentions self
                { { m3 with spinDuration := adjust_down m3.spinDuration } with
                  succ := Option.none }
              rw [htl] at this
              simpa [hc3] using this
            cases tlr <;> simp_all
          · simp_all
      · simp only [hs, if_false]
        rcases hsl : spin_loop self m1.spinDuration.toNat Option.none m1
          with ⟨ex, m3⟩
        have hc3 : m3.contentions = m.contentions := by
          have := spin_loop_contentions self m1.spinDuration.toNat
            Option.none m1
          rw [hsl] at this
          simpa [hc1] using this
        cases ex with
        | acquired => simpa using hc3
        | broke =>
          simp only
          by_cases hs4 : m3.succ = some self
          · simp only [hs4, if_true, if_pos]
            rcases htl : TryLock self { m3 with succ := Option.none }
              with ⟨tlr, m6⟩
            have hc6 : m6.contentions = m.contentions := by
              have := TryLock_contentions self { m3 with succ := Option.none }
              rw [htl] at this
              simpa [hc3] using this
            cases tlr <;> simp_all
          · simp_all
        | exhausted =>
          simp only
          by_cases hs4 : ({ m3 with
              spinDuration := adjust_down m3.spinDuration } : Monitor).succ
              = some self
          · simp only [hs4, if_true, if_pos]
            rcases htl : TryLock self
                { { m3 with spinDuration := adjust_down m3.spinDuration } with
                  succ := Option.none } with ⟨tlr, m6⟩
            have hc6 : m6.contentions = m.contentions := by
              have := TryLock_contentions self
                { { m3 with spinDuration := adjust_down m3.spinDuration } with
                  succ := Option.none }
              rw [htl] at this
              simpa [hc3] using this
            cases tlr <;> simp_all
          · simp_all

theorem UnlinkAfterAcquire_owner (self : Nat) (m : Monitor) :
    (UnlinkAfterAcquire self m).owner = m.owner := by
  unfold UnlinkAfterAcquire
  split <;> rfl

theorem UnlinkAfterAcquire_succ (self : Nat) (m : Monitor) :
    (UnlinkAfterAcquire self m).succ = m.succ := by
  unfold UnlinkAfterAcquire
  split <;> rfl

theorem UnlinkAfterAcquire_responsible (self : Nat) (m : Monitor) :
    (UnlinkAfterAcquire self m).responsible = m.responsible := by
  unfold UnlinkAfterAcquire
  split <;> rfl

theorem TryLock_fst_success_owner (self : Nat) (m : Monitor)
    (h : (TryLock self m).1 = TryLockResult.Success) :
    ((TryLock self m).2).owner = OwnerVal.thread self := by
  by_cases h1 : m.owner = OwnerVal.null
  · simp [TryLock, try_set_owner_from, h1]
  · simp [TryLock, try_set_owner_from, h1] at h

theorem tsof_fst_eq_old_owner (m : Monitor) (a b : OwnerVal)
    (h : (try_set_owner_from m a b).1 = a) :
    ((try_set_owner_from m a b).2).owner = b := by
  by_cases h1 : m.owner = a
  · simp [try_set_owner_from, h1]
  · simp [try_set_owner_from, h1] at h

theorem TrySpin_fst_owner (self : Nat) (m : Monitor)
    (h : (TrySpin self m).1 = true) :
    ((TrySpin self m).2).owner = OwnerVal.thread self := by
  rcases hp : TrySpin self m with ⟨b, m2⟩
  rw [hp] at h
  simp at h
  subst h
  simp
  exact TrySpin_true_owner self m m2 hp

theorem add_to_contentions_owner (m : Monitor) (v : Int) :
    (add_to_contentions m v).owner = m.owner := rfl

theorem enterI_egress_owner (self : Nat) (m : Monitor) :
    (enterI_egress self m).owner = m.owner := by
  unfold enterI_egress
  by_cases h1 : (UnlinkAfterAcquire self m).succ = some self <;>
    simp only [h1, if_true, if_false, ite_true, ite_false] <;>
    split <;>
    simp [UnlinkAfterAcquire_owner]

theorem enterI_loop_some_owner (self : Nat) (n : Nat) (m m' : Monitor)
    (h : enterI_loop self n m = some m') :
    m'.owner = OwnerVal.thread self := by
  induction n generalizing m with
  | zero => simp [enterI_loop] at h
  | succ n ih =>
    rw [enterI_loop] at h
    by_cases h1 : (TryLock self m).1 = TryLockResult.Success
    · simp [h1] at h
      rw [← h]
      exact TryLock_fst_success_owner self m h1
    · simp only [h1, if_false, ite_false] at h
      by_cases h2 : (TryLock self (TryLock self m).2).1 = TryLockResult.Success
      · simp [h2] at h
        rw [← h]
        exact TryLock_fst_success_owner self _ h2
      · simp only [h2, if_false, ite_false] at h
        by_cases h3 : (try_set_owner_from (TryLock self (TryLock self m).2).2
            OwnerVal.deflater (OwnerVal.thread self)).1 = OwnerVal.deflater
        · simp [h3] at h
          rw [← h, add_to_contentions_owner]
          exact tsof_fst_eq_old_owner _ _ _ h3
        · simp only [h3, if_false, ite_false] at h
          by_cases h4 : (TrySpin self (try_set_owner_from
              (TryLock self (TryLock self m).2).2 OwnerVal.deflater
              (OwnerVal.thread self)).2).1 = true
          · simp [h4] at h
            rw [← h]
            exact TrySpin_fst_owner self _ h4
          · simp only [h4, if_false, ite_false] at h
            exact ih _ h

theorem EnterI_some_owner (fuel : Nat) (self : Nat) (m m' : Monitor)
    (h : EnterI fuel self m = some m') :
    m'.owner = OwnerVal.thread self := by
  unfold EnterI at h
  by_cases h1 : (TryLock self m).1 = TryLockResult.Success
  · simp [h1] at h
    rw [← h]
    exact TryLock_fst_success_owner self m h1
  · simp only [h1, if_false, ite_false] at h
    by_cases h3 : (try_set_owner_from (TryLock self m).2
        OwnerVal.deflater (OwnerVal.thread self)).1 = OwnerVal.deflater
    · simp [h3] at h
      rw [← h, add_to_contentions_owner]
      exact tsof_fst_eq_old_owner _ _ _ h3
    · simp only [h3, if_false, ite_false] at h
      by_cases h4 : (TrySpin self (try_set_owner_from (TryLock self m).2
          OwnerVal.deflater (OwnerVal.thread self)).2).1 = true
      · simp [h4] at h
        rw [← h]
        exact TrySpin_fst_owner self _ h4
      · simp only [h4, if_false, ite_false] at h
        rcases h5 : enterI_loop self fuel (enterI_enqueue self
            (TrySpin self (try_set_owner_from (TryLock self m).2
              OwnerVal.deflater (OwnerVal.thread self)).2).2) with _ | m6
        · rw [h5] at h
          simp at h
        · rw [h5] at h
          simp at h
          rw [← h, enterI_egress_owner]
          exact enterI_loop_some_owner self fuel _ m6 h5

theorem install_displaced_contentions (m : Monitor) :
    (install_displaced_markword_in_object m).contentions = m.contentions := by
  unfold install_displaced_markword_in_object
  split <;> rfl

/-- C1: Every terminating call to `enter(self)` either returns OWNED
(`true`) with the calling thread installed as owner, or returns RETRY
(`false`); RETRY is returned only when async deflation raced, i.e. only
when, after the caller's contentions increment, the monitor was observed as
being async-deflated (contentions pushed negative), in which case the
increment is undone before returning. -/
theorem enter_owned_or_retry (fuel self : Nat) (m : Monitor) (r : Bool)
    (m' : Monitor) (h : enter fuel self m = some (r, m')) :
    (r = true → m'.owner = OwnerVal.thread self) ∧
    (r = false →
      is_being_async_deflated (add_to_contentions m 1) = true ∧
      m'.contentions = m.contentions) := by
  unfold enter at h
  by_cases h0 : m.owner = OwnerVal.null
  · have h1 : (try_set_owner_from m OwnerVal.null (OwnerVal.thread self)).1
        = OwnerVal.null := by
      simp [try_set_owner_from, h0]
    simp only [h1, if_true, ite_true] at h
    simp at h
    obtain ⟨hr, hm⟩ := h
    subst hr
    subst hm
    refine ⟨fun _ => ?_, fun hf => by simp at hf⟩
    exact tsof_fst_eq_old_owner m OwnerVal.null (OwnerVal.thread self) h1
  · have hts : try_set_owner_from m OwnerVal.null (OwnerVal.thread self)
        = (m.owner, m) := by
      simp [try_set_owner_from, h0]
    rw [hts] at h
    simp only at h
    by_cases h2 : m.owner = OwnerVal.thread self
    · simp only [h0, h2, if_true, ite_true, if_false, ite_false] at h
      simp at h
      obtain ⟨hr, hm⟩ := h
      subst hr
      subst hm
      refine ⟨fun _ => ?_, fun hf => by simp at hf⟩
      simp
    · rw [if_neg (by simp [h0] : ¬(m.owner = OwnerVal.null))] at h
      rw [if_neg h2] at h
      by_cases h4 : (TrySpin self m).1 = true
      · simp only [h4, if_true, ite_true] at h
        simp at h
        obtain ⟨hr, hm⟩ := h
        subst hr
        subst hm
        refine ⟨fun _ => ?_, fun hf => by simp at hf⟩
        exact TrySpin_fst_owner self m h4
      · simp only [h4, if_false, ite_false] at h
        by_cases h5 : is_being_async_deflated
            (add_to_contentions (TrySpin self m).2 1) = true
        · simp only [h5, if_true, ite_true] at h
          simp at h
          obtain ⟨hr, hm⟩ := h
          subst hr
          refine ⟨fun hf => by simp at hf, fun _ => ?_⟩
          constructor
          · simp only [is_being_async_deflated, add_to_contentions,
              TrySpin_contentions] at h5 ⊢
            exact h5
          · rw [← hm]
            simp only [add_to_contentions]
            split <;>
              simp [install_displaced_contentions, add_to_contentions,
                TrySpin_contentions]
        · simp only [h5, if_false, ite_false] at h
          rcases h6 : EnterI fuel self
              (add_to_contentions (TrySpin self m).2 1) with _ | m3
          · rw [h6] at h
            simp at h
          · rw [h6] at h
            simp at h
            obtain ⟨hr, hm⟩ := h
            subst hr
            refine ⟨fun _ => ?_, fun hf => by simp at hf⟩
            rw [← hm, add_to_contentions_owner]
            exact EnterI_some_owner fuel self _ m3 h6

/-- Witness for C1: thread 7 entering an idle monitor acquires it. -/
theorem enter_owned_or_retry_witness :
    (true = true →
      ({ monIdle with owner := OwnerVal.thread 7 } : Monitor).owner =
        OwnerVal.thread 7) ∧
    (true = false →
      is_being_async_deflated (add_to_contentions monIdle 1) = true ∧
      ({ monIdle with owner := OwnerVal.thread 7 } : Monitor).contentions =
        monIdle.contentions) :=
  enter_owned_or_retry 1 7 monIdle true
    { monIdle with owner := OwnerVal.thread 7 } (by decide)

/-- C5 counterexample: the claim that the successful-spin update clamps the
result at `SPIN_LIMIT` fails at `spin_duration = 4999`, which lies inside
`[0, SPIN_LIMIT]` and is updated to `5099 > 5000`. -/
theorem adjust_up_counterexample :
    (0 ≤ (4999 : Int) ∧ (4999 : Int) ≤ Knob_SpinLimit) ∧
    adjust_up 4999 = 5099 ∧ Knob_SpinLimit < adjust_up 4999 := by decide

/-- C5 (amended): for spin_duration in `[0, SPIN_LIMIT]`, `adjust_up` first
raises values below `POVERTY` to `POVERTY` and then adds `BONUS`, but only
when the value is below `SPIN_LIMIT`; a value already at `SPIN_LIMIT` is
left unchanged, and there is no clamp at `SPIN_LIMIT`: the result is only
bounded by `SPIN_LIMIT + BONUS - 1 = 5099`. -/
theorem adjust_up_spec (x : Int) (h0 : 0 ≤ x) (h1 : x ≤ Knob_SpinLimit) :
    (x < Knob_Poverty → adjust_up x = Knob_Poverty + Knob_Bonus) ∧
    (Knob_Poverty ≤ x → x < Knob_SpinLimit → adjust_up x = x + Knob_Bonus) ∧
    (x = Knob_SpinLimit → adjust_up x = x) ∧
    adjust_up x ≤ Knob_SpinLimit + Knob_Bonus - 1 := by
  simp only [adjust_up, Knob_SpinLimit, Knob_Poverty, Knob_Bonus] at h1 ⊢
  refine ⟨fun hp => ?_, fun hp1 hp2 => ?_, fun he => ?_, ?_⟩ <;>
    (split <;> (try split)) <;> omega

/-- Witness for C5's amended theorem at `spin_duration = 3`. -/
theorem adjust_up_spec_witness :
    ((3 : Int) < Knob_Poverty → adjust_up 3 = Knob_Poverty + Knob_Bonus) ∧
    (Knob_Poverty ≤ (3 : Int) → (3 : Int) < Knob_SpinLimit →
      adjust_up 3 = 3 + Knob_Bonus) ∧
    ((3 : Int) = Knob_SpinLimit → adjust_up 3 = 3) ∧
    adjust_up 3 ≤ Knob_SpinLimit + Knob_Bonus - 1 :=
  adjust_up_spec 3 (by decide) (by decide)

theorem adjust_up_le (x : Int) : x ≤ adjust_up x := by
  simp only [adjust_up, Knob_SpinLimit, Knob_Poverty, Knob_Bonus]
  split
  · split <;> omega
  · omega

theorem adjust_down_le (x : Int) : adjust_down x ≤ x := by
  simp only [adjust_down, Knob_Penalty]
  split
  · split <;> omega
  · omega

theorem applyAdj_inv (x : Int) (a : SpinAdj) (h0 : 0 ≤ x)
    (h1 : x < Knob_SpinLimit + Knob_Bonus) :
    0 ≤ applyAdj x a ∧ applyAdj x a < Knob_SpinLimit + Knob_Bonus := by
  cases a with
  | up =>
    simp only [applyAdj, adjust_up, Knob_SpinLimit, Knob_Poverty,
      Knob_Bonus] at h1 ⊢
    split
    · split <;> omega
    · omega
  | down =>
    simp only [applyAdj, adjust_down, Knob_SpinLimit, Knob_Penalty,
      Knob_Bonus] at h1 ⊢
    split
    · split <;> omega
    · omega

theorem foldl_applyAdj_inv (l : List SpinAdj) (x : Int) (h0 : 0 ≤ x)
    (h1 : x < Knob_SpinLimit + Knob_Bonus) :
    0 ≤ List.foldl applyAdj x l ∧
      List.foldl applyAdj x l < Knob_SpinLimit + Knob_Bonus := by
  induction l generalizing x with
  | nil => exact ⟨h0, h1⟩
  | cons a l ih =>
    have := applyAdj_inv x a h0 h1
    simpa using ih (applyAdj x a) this.1 this.2

/-- C9: from any `spin_duration` in `[0, SPIN_LIMIT]`, every sequence of
`adjust_up`/`adjust_down` applications keeps the value non-negative and
strictly below `SPIN_LIMIT + BONUS` (at most 5099 with the default knobs);
`adjust_up` never decreases the value and `adjust_down` never increases
it. -/
theorem spin_duration_bounded (x : Int) (h0 : 0 ≤ x)
    (h1 : x ≤ Knob_SpinLimit) :
    (∀ l : List SpinAdj, 0 ≤ List.foldl applyAdj x l ∧
        List.foldl applyAdj x l < Knob_SpinLimit + Knob_Bonus) ∧
    (∀ y : Int, y ≤ adjust_up y) ∧
    (∀ y : Int, adjust_down y ≤ y) := by
  refine ⟨fun l => foldl_applyAdj_inv l x h0 ?_, adjust_up_le,
    adjust_down_le⟩
  simp only [Knob_SpinLimit, Knob_Bonus] at h1 ⊢
  omega

/-- Witness for C9 at `spin_duration = 0`. -/
theorem spin_duration_bounded_witness :
    (∀ l : List SpinAdj, 0 ≤ List.foldl applyAdj 0 l ∧
        List.foldl applyAdj 0 l < Knob_SpinLimit + Knob_Bonus) ∧
    (∀ y : Int, y ≤ adjust_up y) ∧
    (∀ y : Int, adjust_down y ≤ y) :=
  spin_duration_bounded 0 (by decide) (by decide)

/-- C8: `exit` called by a thread that is not the current owner returns
immediately, raising no error and leaving every monitor field unchanged. -/
theorem exit_by_nonowner_noop (fuel self : Nat) (m : Monitor)
    (h : m.owner ≠ OwnerVal.thread self) :
    exit fuel self m = some m := by
  unfold exit
  rw [if_pos h]

/-- Witness for C8: thread 2 exiting a monitor owned by thread 1. -/
theorem exit_by_nonowner_noop_witness :
    exit 1 2 { monIdle with owner := OwnerVal.thread 1 } =
      some { monIdle with owner := OwnerVal.thread 1 } :=
  exit_by_nonowner_noop 1 2 { monIdle with owner := OwnerVal.thread 1 }
    (by decide)

/-- C10: `notify` and `notifyAll` called by the owner with an empty WaitSet
return normally and leave the monitor unchanged, while a non-owner caller
gets NOT_OWNER even when the WaitSet is empty, because the ownership check
runs first. -/
theorem notify_empty_waitset (self : Nat) (m : Monitor)
    (hw : m.waitSet = []) :
    (m.owner = OwnerVal.thread self →
      notify self m = Except.ok m ∧ notifyAll self m = Except.ok m) ∧
    (m.owner ≠ OwnerVal.thread self →
      notify self m = Except.error MonError.NOT_OWNER ∧
      notifyAll self m = Except.error MonError.NOT_OWNER) := by
  constructor
  · intro ho
    constructor <;> simp [notify, notifyAll, check_owner, ho, hw]
  · intro ho
    constructor <;> simp [notify, notifyAll, check_owner, ho, hw]

/-- Witness for C10: owner thread 1 notifying with an empty WaitSet. -/
theorem notify_empty_waitset_witness :
    (({ monIdle with owner := OwnerVal.thread 1 } : Monitor).owner =
        OwnerVal.thread 1 →
      notify 1 { monIdle with owner := OwnerVal.thread 1 } =
          Except.ok { monIdle with owner := OwnerVal.thread 1 } ∧
        notifyAll 1 { monIdle with owner := OwnerVal.thread 1 } =
          Except.ok { monIdle with owner := OwnerVal.thread 1 }) ∧
    (({ monIdle with owner := OwnerVal.thread 1 } : Monitor).owner ≠
        OwnerVal.thread 1 →
      notify 1 { monIdle with owner := OwnerVal.thread 1 } =
          Except.error MonError.NOT_OWNER ∧
        notifyAll 1 { monIdle with owner := OwnerVal.thread 1 } =
          Except.error MonError.NOT_OWNER) :=
  notify_empty_waitset 1 { monIdle with owner := OwnerVal.thread 1 }
    (by decide)

/-- C6: `wait` by a non-owner raises NOT_OWNER with no state change; `wait`
by the owner whose interrupt flag is already set clears the flag and raises
INTERRUPTED before any waiter node is added, so the monitor (waiters,
WaitSet, owner, recursions included) is unchanged and the thread is never
enqueued. -/
theorem wait_entry_error_paths (fuel self : Nat) (intrFlag : Bool)
    (millis : Int) (m : Monitor) :
    (m.owner ≠ OwnerVal.thread self →
      wait_entry fuel self intrFlag millis m =
        WaitEntryOutcome.imse intrFlag m) ∧
    (m.owner = OwnerVal.thread self → intrFlag = true →
      wait_entry fuel self intrFlag millis m =
        WaitEntryOutcome.intr false m) := by
  constructor
  · intro ho
    simp [wait_entry, check_owner, ho]
  · intro ho hi
    subst hi
    simp [wait_entry, check_owner, ho]

/-- Witness for C6: a non-owner caller and an interrupted owner. -/
theorem wait_entry_error_paths_witness :
    wait_entry 1 2 false 0 { monIdle with owner := OwnerVal.thread 1 } =
      WaitEntryOutcome.imse false
        { monIdle with owner := OwnerVal.thread 1 } ∧
    wait_entry 1 3 true 0 { monIdle with owner := OwnerVal.thread 3 } =
      WaitEntryOutcome.intr false
        { monIdle with owner := OwnerVal.thread 3 } :=
  ⟨(wait_entry_error_paths 1 2 false 0
      { monIdle with owner := OwnerVal.thread 1 }).1 (by decide),
    (wait_entry_error_paths 1 3 true 0
      { monIdle with owner := OwnerVal.thread 3 }).2 (by decide) rfl⟩

/-- C7: after the monitor has been re-acquired, `wait` raises INTERRUPTED
exactly when the waiter was not notified and an interrupt is pending; a
notified waiter returns normally even with a pending interrupt (notification
takes precedence), and a spurious wake or timeout with no interrupt returns
normally. -/
theorem wait_finish_interrupt_iff (wasNotified intrFlag : Bool) :
    ((wait_finish wasNotified intrFlag).1 = some MonError.INTERRUPTED ↔
      wasNotified = false ∧ intrFlag = true) ∧
    (wasNotified = true →
      wait_finish wasNotified intrFlag = (Option.none, intrFlag)) ∧
    (wasNotified = false → intrFlag = false →
      wait_finish wasNotified intrFlag = (Option.none, false)) := by
  cases wasNotified <;> cases intrFlag <;> simp [wait_finish]

/-- Witness for C7 at the notified-with-pending-interrupt corner. -/
theorem wait_finish_interrupt_iff_witness :
    ((wait_finish true true).1 = some MonError.INTERRUPTED ↔
      true = false ∧ true = true) ∧
    (true = true → wait_finish true true = (Option.none, true)) ∧
    (true = false → true = false →
      wait_finish true true = (Option.none, false)) :=
  wait_finish_interrupt_iff true true

/-- C4: for the waiter dequeued by `INotify` from a non-empty WaitSet, its
notified flag is set and its notifier recorded; if the EntryList is empty
the node becomes the sole EntryList element in state `TS_ENTER`, otherwise
it is prepended to the cxq in state `TS_CXQ`; in either case nobody is
unparked by the notify itself. -/
theorem inotify_transfer (self : Nat) (m : Monitor) (w : ObjectWaiter)
    (ws : List ObjectWaiter) (hws : m.waitSet = w :: ws) :
    (m.entryList = [] →
      INotify self m =
        { m with
            waitSet := ws
            entryList := [{ w with
              TState := TStates.TS_ENTER
              notified := true
              notifier_tid := self
              prev := PrevPtr.pnull }] }) ∧
    (m.entryList ≠ [] →
      INotify self m =
        { m with
            waitSet := ws
            cxq := { w with
              TState := TStates.TS_CXQ
              notified := true
              notifier_tid := self
              prev := PrevPtr.pnull } :: m.cxq }) ∧
    (INotify self m).unparks = m.unparks := by
  refine ⟨fun he => ?_, fun he => ?_, ?_⟩
  · simp [INotify, DequeueWaiter, hws, he]
  · simp [INotify, DequeueWaiter, hws, he]
  · by_cases he : m.entryList = [] <;> simp [INotify, DequeueWaiter, hws, he]

/-- Witness for C4: notifying thread 5 out of `monWait5`'s WaitSet. -/
theorem inotify_transfer_witness :
    (monWait5.entryList = [] →
      INotify 1 monWait5 =
        { monWait5 with
            waitSet := []
            entryList := [{ wWait 5 with
              TState := TStates.TS_ENTER
              notified := true
              notifier_tid := 1
              prev := PrevPtr.pnull }] }) ∧
    (monWait5.entryList ≠ [] →
      INotify 1 monWait5 =
        { monWait5 with
            waitSet := []
            cxq := { wWait 5 with
              TState := TStates.TS_CXQ
              notified := true
              notifier_tid := 1
              prev := PrevPtr.pnull } :: monWait5.cxq }) ∧
    (INotify 1 monWait5).unparks = monWait5.unparks :=
  inotify_transfer 1 monWait5 (wWait 5) [] (by decide)

theorem convert_map_thread (q : PrevPtr) (l : List ObjectWaiter) :
    (convertCxqToEntryList q l).map (fun w => w.thread) =
      l.map (fun w => w.thread) := by
  induction l generalizing q with
  | nil => rfl
  | cons p rest ih => simp [convertCxqToEntryList, ih]

theorem convert_all_enter (q : PrevPtr) (l : List ObjectWaiter) :
    ∀ w ∈ convertCxqToEntryList q l, w.TState = TStates.TS_ENTER := by
  induction l generalizing q with
  | nil =>
    intro w hw
    simp [convertCxqToEntryList] at hw
  | cons p rest ih =>
    intro w hw
    simp only [convertCxqToEntryList, List.mem_cons] at hw
    rcases hw with h | h
    · rw [h]
    · exact ih _ w h

theorem convert_chainFrom (t : Nat) (l : List ObjectWaiter) :
    prevChainFrom t (convertCxqToEntryList (PrevPtr.pthread t) l) = true := by
  induction l generalizing t with
  | nil => rfl
  | cons p rest ih => simp [convertCxqToEntryList, prevChainFrom, ih]

theorem convert_entryPrevChain (l : List ObjectWaiter) :
    entryPrevChain (convertCxqToEntryList PrevPtr.pnull l) = true := by
  cases l with
  | nil => rfl
  | cons p rest =>
    simp [convertCxqToEntryList, entryPrevChain, convert_chainFrom]

/-- C3: when `exit` finds the EntryList empty, the cxq non-empty and no
successor hint, it detaches the whole cxq chain and installs it as the new
EntryList preserving the cxq's newest-first order, so the newest arrival is
at the head and the oldest arrival nearest the tail, with every node
converted from `TS_CXQ` to `TS_ENTER` and `prev` links written to make the
list doubly linked.  `arrivals` lists the pushed waiters oldest first, so
the cxq LIFO holds their reversal. -/
theorem exit_drains_cxq (fuel self : Nat) (arrivals : List ObjectWaiter)
    (m : Monitor) (howner : m.owner = OwnerVal.thread self)
    (hrec : m.recursions = 0) (hel : m.entryList = [])
    (hcxq : m.cxq = arrivals.reverse) (hne : arrivals ≠ [])
    (hsucc : m.succ = Option.none) (hfuel : fuel ≠ 0) :
    ∃ m', exit fuel self m = some m' ∧
      m'.cxq = [] ∧
      m'.entryList.map (fun w => w.thread) =
        (arrivals.map (fun w => w.thread)).reverse ∧
      (∀ w ∈ m'.entryList, w.TState = TStates.TS_ENTER) ∧
      entryPrevChain m'.entryList = true ∧
      (m'.entryList.head?.map fun w => w.thread) =
        (arrivals.getLast?.map fun w => w.thread) := by
  obtain ⟨n, rfl⟩ : ∃ n, fuel = n + 1 := by
    cases fuel with
    | zero => exact absurd rfl hfuel
    | succ n => exact ⟨n, rfl⟩
  have hrevne : arrivals.reverse ≠ [] := by
    intro h
    apply hne
    have := congrArg List.reverse h
    simpa using this
  obtain ⟨w, ws, harr⟩ := List.exists_cons_of_ne_nil hrevne
  have hexit : exit (n + 1) self m = some
      { m with
          responsible := Option.none
          owner := OwnerVal.null
          cxq := []
          entryList := convertCxqToEntryList PrevPtr.pnull (w :: ws)
          succ := some w.thread
          unparks := m.unparks ++ [w.thread] } := by
    unfold exit
    rw [if_neg (by simp [howner]), if_neg (by simp [hrec])]
    rw [exit_loop]
    simp only [try_set_owner_from, ExitEpilog, hel, hcxq, harr, hsucc,
      howner, hrec]
    simp [convertCxqToEntryList]
  refine ⟨_, hexit, ?_, ?_, ?_, ?_, ?_⟩
  · rfl
  · show (convertCxqToEntryList PrevPtr.pnull (w :: ws)).map
        (fun w => w.thread) = (arrivals.map (fun w => w.thread)).reverse
    rw [convert_map_thread, ← List.map_reverse, harr]
  · show ∀ v ∈ convertCxqToEntryList PrevPtr.pnull (w :: ws),
        v.TState = TStates.TS_ENTER
    exact convert_all_enter PrevPtr.pnull (w :: ws)
  · exact convert_entryPrevChain (w :: ws)
  · show ((convertCxqToEntryList PrevPtr.pnull (w :: ws)).head?.map
        fun w => w.thread) = arrivals.getLast?.map fun w => w.thread
    rw [← List.head?_reverse, harr]
    simp [convertCxqToEntryList]

/-- Witness for C3: threads 2 then 3 pushed onto the cxq of a monitor owned
by thread 1; exit drains them into the EntryList newest-first. -/
theorem exit_drains_cxq_witness :
    ∃ m', exit 1 1 { monIdle with
        owner := OwnerVal.thread 1
        cxq := [wtr 3, wtr 2] } = some m' ∧
      m'.cxq = [] ∧
      m'.entryList.map (fun w => w.thread) =
        (([wtr 2, wtr 3].map (fun w => w.thread)).reverse) ∧
      (∀ w ∈ m'.entryList, w.TState = TStates.TS_ENTER) ∧
      entryPrevChain m'.entryList = true ∧
      (m'.entryList.head?.map fun w => w.thread) =
        ([wtr 2, wtr 3].getLast?.map fun w => w.thread) :=
  exit_drains_cxq 1 1 [wtr 2, wtr 3]
    { monIdle with owner := OwnerVal.thread 1, cxq := [wtr 3, wtr 2] }
    (by decide) (by decide) (by decide) (by decide) (by decide) (by decide)
    (by decide)

theorem INT_MIN_neg : INT_MIN < 0 := by decide

/-- C2: whenever `deflate_monitor` returns true, the final state has
`owner = DEFLATER_MARKER`, negative contentions, empty cxq and EntryList
and zero waiters, and when the object is still live the saved displaced
header has been installed back into the object's header.  The hypothesis is
the system invariant that a monitor with queued contenders has a positive
contentions count; under it `deflate_monitor` also never trips its
`guarantee`s (never returns `none`). -/
theorem deflate_monitor_spec (m : Monitor)
    (hinv : m.cxq ≠ [] ∨ m.entryList ≠ [] → 0 < m.contentions) :
    (∃ res, deflate_monitor m = some res) ∧
    (∀ m', deflate_monitor m = some (true, m') →
      m'.owner = OwnerVal.deflater ∧ m'.contentions < 0 ∧ m'.cxq = [] ∧
      m'.entryList = [] ∧ m'.waiters = 0 ∧
      (m.objectLive = true → m'.headerInstalled = true)) := by
  by_cases hb : is_busy m = true
  · refine ⟨⟨(false, m), ?_⟩, ?_⟩
    · simp [deflate_monitor, hb]
    · intro m' h
      simp [deflate_monitor, hb] at h
  · have hnb : ¬(0 < m.contentions ∨ m.waiters ≠ 0 ∨
        m.owner ≠ OwnerVal.null) := by
      simpa [is_busy] using hb
    push_neg at hnb
    obtain ⟨hc, hw, ho⟩ := hnb
    have hq1 : m.cxq = [] := by
      by_contra h1
      exact absurd (hinv (Or.inl h1)) (by omega)
    have hq2 : m.entryList = [] := by
      by_contra h2
      exact absurd (hinv (Or.inr h2)) (by omega)
    by_cases hol : m.objectLive = true
    · by_cases hc0 : m.contentions = 0
      · have hd : deflate_monitor m = some (true,
            { m with
                owner := OwnerVal.deflater
                contentions := INT_MIN
                headerInstalled := true }) := by
          simp [deflate_monitor, deflate_monitor_tail, try_set_owner_from,
            install_displaced_markword_in_object, hb, hol, ho, hc0, hw,
            hq1, hq2, INT_MIN_neg]
        refine ⟨⟨_, hd⟩, ?_⟩
        intro m' h
        rw [hd] at h
        simp at h
        rw [← h]
        exact ⟨rfl, INT_MIN_neg, hq1, hq2, hw, fun _ => rfl⟩
      · have hd : deflate_monitor m = some (false,
            { m with owner := OwnerVal.null }) := by
          simp [deflate_monitor, deflate_monitor_tail, try_set_owner_from,
            hb, hol, ho, hc0, hw]
        refine ⟨⟨_, hd⟩, ?_⟩
        intro m' h
        rw [hd] at h
        simp at h
    · have hd : deflate_monitor m = some (true,
          { m with
              owner := OwnerVal.deflater
              contentions := INT_MIN }) := by
        simp [deflate_monitor, deflate_monitor_tail,
          install_displaced_markword_in_object, hb, hol, hw, hq1, hq2,
          INT_MIN_neg]
      refine ⟨⟨_, hd⟩, ?_⟩
      intro m' h
      rw [hd] at h
      simp at h
      rw [← h]
      exact ⟨rfl, INT_MIN_neg, hq1, hq2, hw, fun hcontra => absurd hcontra hol⟩

/-- Witness for C2: deflating an idle monitor with a live object. -/
theorem deflate_monitor_spec_witness :
    (∃ res, deflate_monitor monIdle = some res) ∧
    (∀ m', deflate_monitor monIdle = some (true, m') →
      m'.owner = OwnerVal.deflater ∧ m'.contentions < 0 ∧ m'.cxq = [] ∧
      m'.entryList = [] ∧ m'.waiters = 0 ∧
      (monIdle.objectLive = true → m'.headerInstalled = true)) :=
  deflate_monitor_spec monIdle (by decide)

end ObjectMonitorModel
